import Mathlib

/-!
Verification of the cache-aside fetch-and-deliver core of the repository.

The development shallowly embeds the two source programs:

* main.py, function fetch_country_data: a Redis-backed cache-aside lookup
  of country data.  Redis is modelled as an association list of entries
  with absolute expiry timestamps (GET with lazy expiry, SET with EX);
  time is an explicit natural-number parameter.  A backend outage is a
  distinguished constructor; the Python client raises on any operation
  against an unreachable backend.  The json module (dumps with its default
  separators and ensure_ascii escaping, loads) is modelled executably
  below, with numbers restricted to arbitrary-precision integers; float
  payloads are outside the model.  The requests call is the pluggable
  fetch-source adapter: a function from the request URL to either a
  response (status code plus parsed JSON body) or a raised transport
  error.  The Result Sink display_country_data is embedded by a decidable
  predicate on decoded records that captures exactly which field reads of
  lines 58 to 64 succeed; on records it cannot read the sink raises,
  caught inside the try block on the fresh path and uncaught on the
  cache-hit path.

* stock_visualizer.py, methods load_stock_data and the thread body that
  loads and plots: a thread-per-request runner with no request
  coalescing, modelled by the list of spawned fetch threads, and an
  unconditional UI overwrite on completion, modelled by a fold over the
  completion order.

All definitions are executable; Python str.strip is translated over the
full set of characters its str.isspace test accepts, and the texts of the
exceptions the sink can raise are abstracted to named constants.
-/

/-! ## Python str.strip, as used on the country entry text -/

/-- The characters Python str.strip with no argument removes: exactly
those str.isspace accepts, that is U+0009 to U+000D, U+001C to U+001F,
the space, U+0085, U+00A0, U+1680, U+2000 to U+200A, U+2028, U+2029,
U+202F, U+205F and U+3000. -/
def isPySpace (c : Char) : Bool :=
  (9 ≤ c.toNat && c.toNat ≤ 13) || (28 ≤ c.toNat && c.toNat ≤ 31) ||
  c.toNat = 32 || c.toNat = 0x85 || c.toNat = 0xa0 || c.toNat = 0x1680 ||
  (0x2000 ≤ c.toNat && c.toNat ≤ 0x200a) || c.toNat = 0x2028 ||
  c.toNat = 0x2029 || c.toNat = 0x202f || c.toNat = 0x205f || c.toNat = 0x3000

/-- Leading and trailing whitespace removal on the character list. -/
def pyStripL (l : List Char) : List Char :=
  ((l.dropWhile isPySpace).reverse.dropWhile isPySpace).reverse

/-- Python str.strip with no argument: drop leading and trailing whitespace. -/
def pyStrip (s : String) : String := String.mk (pyStripL s.data)

/-! ## JSON values

The values produced by response.json() and consumed by json.dumps and
json.loads in main.py.  Arrays and objects are mutually inductive lists so
that structural recursion and induction stay available.  Numbers are
modelled as integers. -/

mutual
inductive Json where
  | null : Json
  | bool : Bool → Json
  | num : Int → Json
  | str : String → Json
  | arr : JsonList → Json
  | obj : JsonFields → Json
  deriving DecidableEq
inductive JsonList where
  | nil : JsonList
  | cons : Json → JsonList → JsonList
  deriving DecidableEq
inductive JsonFields where
  | nil : JsonFields
  | cons : String → Json → JsonFields → JsonFields
  deriving DecidableEq
end

/-! ## json.dumps

Python json.dumps with its defaults: separators a comma-space and a
colon-space, ensure_ascii escaping of strings, decimal integers. -/

/-- Decimal digit character for a value below ten. -/
def digitChar : Nat → Char
  | 0 => '0' | 1 => '1' | 2 => '2' | 3 => '3' | 4 => '4'
  | 5 => '5' | 6 => '6' | 7 => '7' | 8 => '8' | 9 => '9'
  | _ => '*'

/-- Fuelled most-significant-first decimal digit emission. -/
def natDigitsF : Nat → Nat → List Char
  | 0, _ => []
  | f + 1, n =>
    if n < 10 then [digitChar n]
    else natDigitsF f (n / 10) ++ [digitChar (n % 10)]

/-- Decimal digits of a natural number, most significant first. -/
def dumpNat (n : Nat) : List Char := natDigitsF (n + 1) n

/-- Decimal rendering of an integer, with a leading minus when negative. -/
def dumpInt (i : Int) : List Char :=
  if i < 0 then '-' :: dumpNat i.natAbs else dumpNat i.toNat

/-- Lowercase hexadecimal digit character for a value below sixteen. -/
def hexDig : Nat → Char
  | 0 => '0' | 1 => '1' | 2 => '2' | 3 => '3' | 4 => '4'
  | 5 => '5' | 6 => '6' | 7 => '7' | 8 => '8' | 9 => '9'
  | 10 => 'a' | 11 => 'b' | 12 => 'c' | 13 => 'd' | 14 => 'e' | 15 => 'f'
  | _ => '*'

/-- Four lowercase hexadecimal digits, as in a backslash-u escape. -/
def hex4 (n : Nat) : List Char :=
  [hexDig (n / 4096 % 16), hexDig (n / 256 % 16), hexDig (n / 16 % 16), hexDig (n % 16)]

/-- Escaping of one character inside a JSON string literal, following the
ensure_ascii encoder: two-character escapes for quote, backslash and the
named control characters, plain printable ASCII unchanged, and
backslash-u escapes (with a surrogate pair above the basic plane) for
everything else. -/
def encChar (c : Char) : List Char :=
  if c = '"' then ['\\', '"']
  else if c = '\\' then ['\\', '\\']
  else if c = '\n' then ['\\', 'n']
  else if c = '\t' then ['\\', 't']
  else if c = '\r' then ['\\', 'r']
  else if c.toNat = 8 then ['\\', 'b']
  else if c.toNat = 12 then ['\\', 'f']
  else if 0x20 ≤ c.toNat ∧ c.toNat ≤ 0x7e then [c]
  else if c.toNat < 0x10000 then '\\' :: 'u' :: hex4 c.toNat
  else
    '\\' :: 'u' :: hex4 (0xd800 + (c.toNat - 0x10000) / 1024) ++
      '\\' :: 'u' :: hex4 (0xdc00 + (c.toNat - 0x10000) % 1024)

/-- Escaping of every character of a string body. -/
def encChars : List Char → List Char
  | [] => []
  | c :: cs => encChar c ++ encChars cs

/-- A JSON string literal: quote, escaped body, quote. -/
def dumpStr (s : String) : List Char := '"' :: encChars s.data ++ ['"']

mutual
def dumpVal : Json → List Char
  | .num i => dumpInt i
  | .null => "null".data
  | .bool true => "true".data
  | .bool false => "false".data
  | .str s => dumpStr s
  | .arr .nil => ['[', ']']
  | .arr (.cons v tl) => '[' :: dumpElems (.cons v tl) ++ [']']
  | .obj .nil => ['\x7b', '\x7d']
  | .obj (.cons k v tl) => '\x7b' :: dumpFields (.cons k v tl) ++ ['\x7d']
def dumpElems : JsonList → List Char
  | .nil => []
  | .cons v .nil => dumpVal v
  | .cons v (.cons w tl) => dumpVal v ++ ',' :: ' ' :: dumpElems (.cons w tl)
def dumpFields : JsonFields → List Char
  | .nil => []
  | .cons k v .nil => dumpStr k ++ ':' :: ' ' :: dumpVal v
  | .cons k v (.cons k2 w tl) =>
    dumpStr k ++ ':' :: ' ' :: dumpVal v ++ ',' :: ' ' :: dumpFields (.cons k2 w tl)
end

/-- Python json.dumps with default arguments. -/
def dumps (j : Json) : String := String.mk (dumpVal j)

/-! ## json.loads

A recursive-descent decoder over the character list, fuelled by a natural
number so that all definitions compute by kernel reduction.  It follows
the stdlib decoder on well-formed input: literals, integers (the float
productions are outside the model), strings with escape and surrogate
handling, arrays and objects with whitespace skipping around the
structural characters. -/

/-- Decimal digit test used by the number scanner. -/
def isDigitC (c : Char) : Bool := 48 ≤ c.toNat && c.toNat ≤ 57

/-- JSON whitespace: space, tab, line feed, carriage return. -/
def isJsonWs (c : Char) : Bool := c = ' ' || c = '\t' || c = '\n' || c = '\r'

/-- Skip leading JSON whitespace. -/
def skipWs : List Char → List Char
  | [] => []
  | c :: cs => if isJsonWs c then skipWs cs else c :: cs

/-- Greedy decimal scanner with an accumulator. -/
def parseDigits : Nat → List Char → Nat × List Char
  | acc, [] => (acc, [])
  | acc, c :: cs =>
    if isDigitC c then parseDigits (10 * acc + (c.toNat - 48)) cs else (acc, c :: cs)

/-- Scan an unsigned decimal integer; at least one digit is required. -/
def parseNum : List Char → Option (Nat × List Char)
  | [] => none
  | c :: cs => if isDigitC c then some (parseDigits 0 (c :: cs)) else none

/-- The first character of the remaining input, if any, is not a digit, so
the greedy number scanner cannot run past its production. -/
def goodTail : List Char → Bool
  | [] => true
  | c :: _ => !isDigitC c

/-- Value of one hexadecimal digit character, either case. -/
def hexVal (c : Char) : Option Nat :=
  if 48 ≤ c.toNat ∧ c.toNat ≤ 57 then some (c.toNat - 48)
  else if 97 ≤ c.toNat ∧ c.toNat ≤ 102 then some (c.toNat - 87)
  else if 65 ≤ c.toNat ∧ c.toNat ≤ 70 then some (c.toNat - 55)
  else none

/-- Value of a four-digit hexadecimal group. -/
def hex4val (a b c d : Char) : Option Nat :=
  match hexVal a, hexVal b, hexVal c, hexVal d with
  | some x, some y, some z, some w => some (4096 * x + 256 * y + 16 * z + w)
  | _, _, _, _ => none

/-- Decode the second backslash-u group after a high surrogate with value
v, combining the pair into one supplementary scalar value. -/
def parseUEscLow (v : Nat) : List Char → Option (Char × List Char)
  | e1 :: e2 :: a2 :: b2 :: c2 :: d2 :: r2 =>
    if e1 = '\\' ∧ e2 = 'u' then
      match hex4val a2 b2 c2 d2 with
      | some w =>
        if 0xdc00 ≤ w ∧ w ≤ 0xdfff then
          some (Char.ofNat (0x10000 + (v - 0xd800) * 1024 + (w - 0xdc00)), r2)
        else none
      | none => none
    else none
  | _ => none

/-- Decode a backslash-u escape group: four hexadecimal digits, and when
they denote a high surrogate, a second backslash-u group holding the low
surrogate.  A lone surrogate is rejected; it cannot occur in encoder
output. -/
def parseUEsc : List Char → Option (Char × List Char)
  | a :: b :: c :: d :: r =>
    match hex4val a b c d with
    | none => none
    | some v =>
      if v < 0xd800 ∨ 0xdfff < v then some (Char.ofNat v, r)
      else if v ≤ 0xdbff then parseUEscLow v r
      else none
  | _ => none

/-- Decode one escape sequence after a backslash inside a string literal. -/
def parseEscape : List Char → Option (Char × List Char)
  | [] => none
  | e :: r =>
    if e = '"' then some ('"', r)
    else if e = '\\' then some ('\\', r)
    else if e = '/' then some ('/', r)
    else if e = 'n' then some ('\n', r)
    else if e = 't' then some ('\t', r)
    else if e = 'r' then some ('\r', r)
    else if e = 'b' then some (Char.ofNat 8, r)
    else if e = 'f' then some (Char.ofNat 12, r)
    else if e = 'u' then parseUEsc r
    else none

/-- Decode the body of a string literal up to the closing quote; raw
control characters are rejected as in the strict stdlib decoder.  The
fuel bounds the number of decoded characters. -/
def parseStrChars : Nat → List Char → Option (List Char × List Char)
  | 0, _ => none
  | _ + 1, [] => none
  | f + 1, c :: cs =>
    if c = '"' then some ([], cs)
    else if c = '\\' then
      match parseEscape cs with
      | some (d, r) =>
        match parseStrChars f r with
        | some (l, r2) => some (d :: l, r2)
        | none => none
      | none => none
    else if 0x20 ≤ c.toNat then
      match parseStrChars f cs with
      | some (l, r2) => some (c :: l, r2)
      | none => none
    else none

mutual
def parseVal : Nat → List Char → Option (Json × List Char)
  | 0, _ => none
  | _ + 1, [] => none
  | f + 1, c :: cs =>
    if c = 'n' then
      if cs.take 3 = ['u', 'l', 'l'] then some (.null, cs.drop 3) else none
    else if c = 't' then
      if cs.take 3 = ['r', 'u', 'e'] then some (.bool true, cs.drop 3) else none
    else if c = 'f' then
      if cs.take 4 = ['a', 'l', 's', 'e'] then some (.bool false, cs.drop 4) else none
    else if c = '"' then
      (parseStrChars f cs).bind fun lr => some (.str (String.mk lr.1), lr.2)
    else if c = '[' then
      match skipWs cs with
      | [] => none
      | c2 :: cs3 =>
        if c2 = ']' then some (.arr .nil, cs3)
        else (parseElems f (c2 :: cs3)).bind fun lr => some (.arr lr.1, lr.2)
    else if c = '\x7b' then
      match skipWs cs with
      | [] => none
      | c2 :: cs3 =>
        if c2 = '\x7d' then some (.obj .nil, cs3)
        else (parseFields f (c2 :: cs3)).bind fun fr => some (.obj fr.1, fr.2)
    else if c = '-' then
      (parseNum cs).bind fun nr => some (.num (-(nr.1 : Int)), nr.2)
    else if isDigitC c then
      (parseNum (c :: cs)).bind fun nr => some (.num (nr.1 : Int), nr.2)
    else none
def parseElems : Nat → List Char → Option (JsonList × List Char)
  | 0, _ => none
  | f + 1, cs =>
    (parseVal f cs).bind fun vr =>
      match skipWs vr.2 with
      | [] => none
      | s :: r2 =>
        if s = ',' then
          (parseElems f (skipWs r2)).bind fun tr => some (.cons vr.1 tr.1, tr.2)
        else if s = ']' then some (.cons vr.1 .nil, r2)
        else none
def parseFields : Nat → List Char → Option (JsonFields × List Char)
  | 0, _ => none
  | _ + 1, [] => none
  | f + 1, c :: cs =>
    if c = '"' then
      (parseStrChars f cs).bind fun kr =>
        match skipWs kr.2 with
        | [] => none
        | s :: r2 =>
          if s = ':' then
            (parseVal f (skipWs r2)).bind fun vr =>
              match skipWs vr.2 with
              | [] => none
              | s2 :: r4 =>
                if s2 = ',' then
                  (parseFields f (skipWs r4)).bind fun tr =>
                    some (.cons (String.mk kr.1) vr.1 tr.1, tr.2)
                else if s2 = '\x7d' then some (.cons (String.mk kr.1) vr.1 .nil, r4)
                else none
          else none
    else none
end

/-- Python json.loads: decode one value and insist that only whitespace
remains.  The fuel exceeds any recursion depth reachable on the input. -/
def loads (s : String) : Option Json :=
  (parseVal (s.data.length + 1) (skipWs s.data)).bind fun jr =>
    if skipWs jr.2 = [] then some jr.1 else none

/-! ## Character-level facts -/

/-- Every Lean character is a Unicode scalar value: below the surrogate
range, or strictly between it and the code-point bound. -/
theorem char_valid_ranges (c : Char) :
    c.toNat < 0xd800 ∨ (0xdfff < c.toNat ∧ c.toNat < 0x110000) := by
  have h := c.valid
  unfold UInt32.isValidChar Nat.isValidChar at h
  rcases h with h | ⟨h1, h2⟩
  · left; exact h
  · right; exact ⟨h1, h2⟩

/-- A digit character differs from any non-digit character. -/
theorem isDigitC_ne {c : Char} (h : isDigitC c = true) (d : Char)
    (hd : isDigitC d = false) : c ≠ d := by
  intro he
  rw [he, hd] at h
  cases h

/-- Digit characters are not JSON whitespace. -/
theorem isDigitC_not_ws {c : Char} (h : isDigitC c = true) : isJsonWs c = false := by
  cases hb : isJsonWs c with
  | false => rfl
  | true =>
    exfalso
    have hb2 := hb
    simp only [isJsonWs, Bool.or_eq_true, decide_eq_true_eq] at hb2
    rcases hb2 with ((h1 | h1) | h1) | h1 <;> rw [h1] at h <;> simp [isDigitC] at h

/-- Skipping whitespace leaves a list alone when its head is not whitespace. -/
theorem skipWs_not_ws {c : Char} (h : isJsonWs c = false) (cs : List Char) :
    skipWs (c :: cs) = c :: cs := by
  simp [skipWs, h]

/-- Skipping whitespace consumes a leading space. -/
theorem skipWs_space (cs : List Char) : skipWs (' ' :: cs) = skipWs cs := by
  simp [skipWs, isJsonWs]

/-- The ten decimal digit characters pass the digit test. -/
theorem digitChar_digit : ∀ d, d < 10 → isDigitC (digitChar d) = true := by decide

/-- Decoding a decimal digit character recovers its value. -/
theorem digitChar_val : ∀ d, d < 10 → (digitChar d).toNat - 48 = d := by decide

/-- Decoding a hexadecimal digit character recovers its value. -/
theorem hexVal_hexDig : ∀ d, d < 16 → hexVal (hexDig d) = some d := by decide

/-! ## Decimal round trip -/

/-- The fuelled digit emitter is stable once the fuel covers the number. -/
theorem natDigitsF_mono : ∀ f g n, 0 < f → f ≤ g → n < 10 ^ f →
    natDigitsF f n = natDigitsF g n := by
  intro f
  induction f with
  | zero => intro g n h; omega
  | succ f ih =>
    intro g n _ hfg hn
    obtain ⟨g, rfl⟩ : ∃ g2, g = g2 + 1 := ⟨g - 1, by omega⟩
    rw [natDigitsF, natDigitsF]
    by_cases h10 : n < 10
    · rw [if_pos h10, if_pos h10]
    · rw [if_neg h10, if_neg h10]
      have hf : 0 < f := by
        rcases Nat.eq_zero_or_pos f with h0 | h0
        · subst h0; norm_num at hn; omega
        · exact h0
      have hdiv : n / 10 < 10 ^ f := by
        rw [Nat.div_lt_iff_lt_mul (by norm_num)]
        calc n < 10 ^ (f + 1) := hn
          _ = 10 ^ f * 10 := by rw [pow_succ]
      rw [ih g (n / 10) hf (by omega) hdiv]

/-- Every natural number is below ten to the next power. -/
theorem lt_ten_pow_succ (n : Nat) : n < 10 ^ (n + 1) :=
  calc n < 10 ^ n := Nat.lt_pow_self (by norm_num) n
    _ ≤ 10 ^ (n + 1) := Nat.pow_le_pow_right (by norm_num) (by omega)

/-- Unfolding equation of the digit emitter. -/
theorem dumpNat_eq (n : Nat) :
    dumpNat n = if n < 10 then [digitChar n]
      else dumpNat (n / 10) ++ [digitChar (n % 10)] := by
  by_cases h : n < 10
  · rw [if_pos h, dumpNat, natDigitsF, if_pos h]
  · rw [if_neg h, dumpNat, natDigitsF, if_neg h]
    congr 1
    rw [dumpNat]
    exact (natDigitsF_mono (n / 10 + 1) n (n / 10) (by omega) (by omega)
      (lt_ten_pow_succ _)).symm

/-- Every character emitted for a natural number is a decimal digit. -/
theorem dumpNat_digits : ∀ n, ∀ c ∈ dumpNat n, isDigitC c = true := by
  intro n
  induction n using Nat.strong_induction_on with
  | _ n ih =>
    rw [dumpNat_eq n]
    by_cases h : n < 10
    · rw [if_pos h]
      intro c hc
      simp only [List.mem_singleton] at hc
      rw [hc]
      exact digitChar_digit n h
    · rw [if_neg h]
      intro c hc
      rw [List.mem_append] at hc
      rcases hc with hc | hc
      · exact ih (n / 10) (by omega) c hc
      · simp only [List.mem_singleton] at hc
        rw [hc]
        exact digitChar_digit (n % 10) (by omega)

/-- The digit emitter never returns an empty list. -/
theorem dumpNat_ne_nil (n : Nat) : dumpNat n ≠ [] := by
  rw [dumpNat_eq n]
  by_cases h : n < 10
  · rw [if_pos h]; simp
  · rw [if_neg h]; simp

/-- The digits of a natural number, with their leading digit exposed. -/
theorem dumpNat_head (n : Nat) : ∃ c t, dumpNat n = c :: t ∧ isDigitC c = true := by
  rcases hd : dumpNat n with _ | ⟨c, t⟩
  · exact absurd hd (dumpNat_ne_nil n)
  · exact ⟨c, t, rfl, dumpNat_digits n c (by rw [hd]; simp)⟩

/-- The digit scanner stops at once on a good tail. -/
theorem parseDigits_stop {rest : List Char} (h : goodTail rest = true) (acc : Nat) :
    parseDigits acc rest = (acc, rest) := by
  cases rest with
  | nil => rfl
  | cons c cs =>
    rw [goodTail] at h
    rw [parseDigits, if_neg]
    simp only [Bool.not_eq_true'] at h
    simp [h]

/-- The digit scanner consumes exactly a block of digits, folding their
values into the accumulator. -/
theorem parseDigits_append : ∀ l : List Char, ∀ acc (rest : List Char),
    (∀ c ∈ l, isDigitC c = true) → goodTail rest = true →
    parseDigits acc (l ++ rest) =
      (l.foldl (fun a c => 10 * a + (c.toNat - 48)) acc, rest) := by
  intro l
  induction l with
  | nil => intro acc rest _ hg; simpa using parseDigits_stop hg acc
  | cons c l ih =>
    intro acc rest hd hg
    have hc : isDigitC c = true := hd c (by simp)
    rw [List.cons_append, parseDigits, if_pos hc]
    rw [ih _ rest (fun x hx => hd x (by simp [hx])) hg]
    rfl

/-- Folding the digit values of an emitted number recovers the number. -/
theorem foldl_dumpNat : ∀ n acc,
    (dumpNat n).foldl (fun a c => 10 * a + (c.toNat - 48)) acc
      = acc * 10 ^ (dumpNat n).length + n := by
  intro n
  induction n using Nat.strong_induction_on with
  | _ n ih =>
    intro acc
    rw [dumpNat_eq n]
    by_cases h : n < 10
    · rw [if_pos h]
      simp only [List.foldl_cons, List.foldl_nil, List.length_singleton]
      rw [digitChar_val n h, pow_one]
      ring
    · rw [if_neg h]
      rw [List.foldl_append, ih (n / 10) (by omega) acc]
      simp only [List.foldl_cons, List.foldl_nil, List.length_append,
        List.length_singleton]
      rw [digitChar_val (n % 10) (by omega), pow_succ]
      have hmod : 10 * (n / 10) + n % 10 = n := by omega
      calc 10 * (acc * 10 ^ (dumpNat (n / 10)).length + n / 10) + n % 10
          = acc * (10 ^ (dumpNat (n / 10)).length * 10)
            + (10 * (n / 10) + n % 10) := by ring
        _ = acc * (10 ^ (dumpNat (n / 10)).length * 10) + n := by rw [hmod]

/-- The number scanner decodes an emitted natural number exactly. -/
theorem parseNum_dumpNat (n : Nat) (rest : List Char) (hg : goodTail rest = true) :
    parseNum (dumpNat n ++ rest) = some (n, rest) := by
  obtain ⟨c, t, hct, hc⟩ := dumpNat_head n
  rw [hct, List.cons_append, parseNum, if_pos hc]
  rw [← List.cons_append, ← hct]
  rw [parseDigits_append (dumpNat n) 0 rest (dumpNat_digits n) hg]
  rw [foldl_dumpNat n 0]
  simp

/-! ## String-escape round trip -/

/-- Reassembling the four emitted hexadecimal digits recovers the value. -/
theorem hex4val_parts (n : Nat) (h : n < 0x10000) :
    hex4val (hexDig (n / 4096 % 16)) (hexDig (n / 256 % 16)) (hexDig (n / 16 % 16))
      (hexDig (n % 16)) = some n := by
  rw [hex4val, hexVal_hexDig _ (by omega), hexVal_hexDig _ (by omega),
    hexVal_hexDig _ (by omega), hexVal_hexDig _ (by omega)]
  show some (4096 * (n / 4096 % 16) + 256 * (n / 256 % 16) + 16 * (n / 16 % 16)
    + n % 16) = some n
  congr 1
  omega

/-- Decoding an emitted basic-plane escape group yields its character. -/
theorem parseUEsc_bmp (n : Nat) (rest : List Char) (h : n < 0x10000)
    (hs : n < 0xd800 ∨ 0xdfff < n) :
    parseUEsc (hex4 n ++ rest) = some (Char.ofNat n, rest) := by
  simp only [hex4, List.cons_append, List.nil_append]
  rw [parseUEsc, hex4val_parts n h]
  split
  · exact absurd (by assumption) (by simp)
  · next v heq =>
      injection heq with hv
      subst hv
      rw [if_pos hs]

/-- Decoding an emitted surrogate pair yields the supplementary character. -/
theorem parseUEsc_surr (v : Nat) (rest : List Char) (h : v < 0x100000) :
    parseUEsc (hex4 (0xd800 + v / 1024) ++ '\\' :: 'u' :: (hex4 (0xdc00 + v % 1024)
      ++ rest)) = some (Char.ofNat (0x10000 + v), rest) := by
  have hhi : 0xd800 + v / 1024 < 0x10000 := by omega
  have hlo : 0xdc00 + v % 1024 < 0x10000 := by omega
  simp only [hex4, List.cons_append, List.nil_append]
  rw [parseUEsc, hex4val_parts _ hhi]
  split
  · exact absurd (by assumption) (by simp)
  · next w heq =>
      injection heq with hw
      subst hw
      rw [if_neg (by omega), if_pos (by omega)]
      rw [parseUEscLow]
      split
      · next hc =>
          rw [hex4val_parts _ hlo]
          split
          · next w2 heq2 =>
              injection heq2 with hw2
              subst hw2
              rw [if_pos (by omega)]
              have harg : 0x10000 + (0xd800 + v / 1024 - 0xd800) * 1024
                  + (0xdc00 + v % 1024 - 0xdc00) = 0x10000 + v := by omega
              rw [harg]
          · exact absurd (by assumption) (by simp)
      · next hc => exact absurd ⟨rfl, rfl⟩ hc

/-- Decoding one encoded character prepends exactly that character and
continues on the remaining input. -/
theorem parseStrChars_encChar (c : Char) (f : Nat) (rest : List Char) :
    parseStrChars (f + 1) (encChar c ++ rest) =
      (parseStrChars f rest).map (fun p => (c :: p.1, p.2)) := by
  have hval := char_valid_ranges c
  by_cases h1 : c = '"'
  · subst h1
    cases hp : parseStrChars f rest <;>
      simp [encChar, parseStrChars, parseEscape, hp]
  by_cases h2 : c = '\\'
  · subst h2
    cases hp : parseStrChars f rest <;>
      simp [encChar, parseStrChars, parseEscape, hp]
  by_cases h3 : c = '\n'
  · subst h3
    cases hp : parseStrChars f rest <;>
      simp [encChar, parseStrChars, parseEscape, h1, h2, hp]
  by_cases h4 : c = '\t'
  · subst h4
    cases hp : parseStrChars f rest <;>
      simp [encChar, parseStrChars, parseEscape, h1, h2, h3, hp]
  by_cases h5 : c = '\r'
  · subst h5
    cases hp : parseStrChars f rest <;>
      simp [encChar, parseStrChars, parseEscape, h1, h2, h3, h4, hp]
  by_cases h6 : c.toNat = 8
  · have hc : c = Char.ofNat 8 := by rw [← h6, Char.ofNat_toNat]
    have henc : encChar c = ['\\', 'b'] := by
      rw [encChar, if_neg h1, if_neg h2, if_neg h3, if_neg h4, if_neg h5, if_pos h6]
    rw [henc]
    cases hp : parseStrChars f rest <;>
      simp [parseStrChars, parseEscape, hp, hc]
  by_cases h7 : c.toNat = 12
  · have hc : c = Char.ofNat 12 := by rw [← h7, Char.ofNat_toNat]
    have henc : encChar c = ['\\', 'f'] := by
      rw [encChar, if_neg h1, if_neg h2, if_neg h3, if_neg h4, if_neg h5, if_neg h6,
        if_pos h7]
    rw [henc]
    cases hp : parseStrChars f rest <;>
      simp [parseStrChars, parseEscape, hp, hc]
  by_cases h8 : 0x20 ≤ c.toNat ∧ c.toNat ≤ 0x7e
  · have henc : encChar c = [c] := by
      rw [encChar, if_neg h1, if_neg h2, if_neg h3, if_neg h4, if_neg h5, if_neg h6,
        if_neg h7, if_pos h8]
    rw [henc, List.singleton_append, parseStrChars, if_neg h1, if_neg h2,
      if_pos h8.1]
    cases parseStrChars f rest <;> rfl
  by_cases h9 : c.toNat < 0x10000
  · have henc : encChar c = '\\' :: 'u' :: hex4 c.toNat := by
      rw [encChar, if_neg h1, if_neg h2, if_neg h3, if_neg h4, if_neg h5, if_neg h6,
        if_neg h7, if_neg h8, if_pos h9]
    have hs : c.toNat < 0xd800 ∨ 0xdfff < c.toNat := by
      rcases hval with h | h
      · exact Or.inl h
      · exact Or.inr h.1
    have hesc : parseEscape ('u' :: (hex4 c.toNat ++ rest)) = some (c, rest) := by
      rw [parseEscape, if_neg (by decide), if_neg (by decide), if_neg (by decide),
        if_neg (by decide), if_neg (by decide), if_neg (by decide), if_neg (by decide),
        if_neg (by decide), if_pos rfl]
      rw [parseUEsc_bmp c.toNat rest h9 hs, Char.ofNat_toNat]
    rw [henc, List.cons_append, List.cons_append]
    rw [parseStrChars, if_neg (by decide), if_pos rfl, hesc]
    show (match parseStrChars f rest with
      | some (l, r2) => some (c :: l, r2)
      | none => none) = (parseStrChars f rest).map (fun p => (c :: p.1, p.2))
    cases parseStrChars f rest <;> rfl
  · have henc : encChar c =
        '\\' :: 'u' :: hex4 (0xd800 + (c.toNat - 0x10000) / 1024) ++
          '\\' :: 'u' :: hex4 (0xdc00 + (c.toNat - 0x10000) % 1024) := by
      rw [encChar, if_neg h1, if_neg h2, if_neg h3, if_neg h4, if_neg h5, if_neg h6,
        if_neg h7, if_neg h8, if_neg h9]
    have hv : c.toNat - 0x10000 < 0x100000 := by
      rcases hval with h | h
      · omega
      · omega
    have hback : 0x10000 + (c.toNat - 0x10000) = c.toNat := by omega
    have hesc : parseEscape ('u' :: (hex4 (0xd800 + (c.toNat - 0x10000) / 1024) ++
        '\\' :: 'u' :: (hex4 (0xdc00 + (c.toNat - 0x10000) % 1024) ++ rest)))
        = some (c, rest) := by
      rw [parseEscape, if_neg (by decide), if_neg (by decide), if_neg (by decide),
        if_neg (by decide), if_neg (by decide), if_neg (by decide), if_neg (by decide),
        if_neg (by decide), if_pos rfl]
      rw [parseUEsc_surr (c.toNat - 0x10000) rest hv, hback, Char.ofNat_toNat]
    rw [henc]
    simp only [List.cons_append, List.append_assoc]
    rw [parseStrChars, if_neg (by decide), if_pos rfl, hesc]
    show (match parseStrChars f rest with
      | some (l, r2) => some (c :: l, r2)
      | none => none) = (parseStrChars f rest).map (fun p => (c :: p.1, p.2))
    cases parseStrChars f rest <;> rfl

/-- Decoding an encoded string body consumes it exactly, up to the closing
quote, once the fuel covers its length. -/
theorem parseStrChars_enc : ∀ (l : List Char) (f : Nat) (rest : List Char),
    l.length < f →
    parseStrChars f (encChars l ++ ('"' :: rest)) = some (l, rest) := by
  intro l
  induction l with
  | nil =>
    intro f rest hf
    obtain ⟨f, rfl⟩ : ∃ g, f = g + 1 := ⟨f - 1, by omega⟩
    simp [encChars, parseStrChars]
  | cons c l ih =>
    intro f rest hf
    obtain ⟨f, rfl⟩ : ∃ g, f = g + 1 := ⟨f - 1, by omega⟩
    rw [encChars, List.append_assoc, parseStrChars_encChar]
    rw [ih f rest (by simp only [List.length_cons] at hf; omega)]
    rfl

/-! ## Round trip of the full grammar -/

/-- Rebuilding a string from its character data is the identity. -/
theorem string_mk_data (s : String) : String.mk s.data = s := rfl

/-- A digit character is none of the dispatch characters of the value
parser. -/
theorem isDigitC_head_facts {c : Char} (h : isDigitC c = true) :
    c ≠ 'n' ∧ c ≠ 't' ∧ c ≠ 'f' ∧ c ≠ '"' ∧ c ≠ '[' ∧ c ≠ '\x7b' ∧ c ≠ '-' :=
  ⟨isDigitC_ne h 'n' (by decide), isDigitC_ne h 't' (by decide),
   isDigitC_ne h 'f' (by decide), isDigitC_ne h '"' (by decide),
   isDigitC_ne h '[' (by decide), isDigitC_ne h '\x7b' (by decide),
   isDigitC_ne h '-' (by decide)⟩

/-- Every dumped value starts with a character that is not whitespace and
not a closing bracket. -/
theorem dumpVal_head (j : Json) : ∃ c t, dumpVal j = c :: t ∧ isJsonWs c = false ∧
    c ≠ ']' ∧ c ≠ '\x7d' := by
  cases j with
  | num i =>
    by_cases hi : i < 0
    · refine ⟨'-', dumpNat i.natAbs, ?_, by decide⟩
      rw [dumpVal, dumpInt, if_pos hi]
    · obtain ⟨c, t, hct, hcd⟩ := dumpNat_head i.toNat
      refine ⟨c, t, ?_, isDigitC_not_ws hcd, isDigitC_ne hcd ']' (by decide),
        isDigitC_ne hcd '\x7d' (by decide)⟩
      rw [dumpVal, dumpInt, if_neg hi, hct]
  | null => exact ⟨'n', _, rfl, by decide⟩
  | str s => exact ⟨'"', _, rfl, by decide⟩
  | bool b =>
    rcases b with _ | _
    · exact ⟨'f', _, rfl, by decide⟩
    · exact ⟨'t', _, rfl, by decide⟩
  | arr l =>
    rcases l with _ | ⟨v, tl⟩
    · exact ⟨'[', _, rfl, by decide⟩
    · exact ⟨'[', _, rfl, by decide⟩
  | obj fl =>
    rcases fl with _ | ⟨k, v, tl⟩
    · exact ⟨'\x7b', _, rfl, by decide⟩
    · exact ⟨'\x7b', _, rfl, by decide⟩

/-- A dumped element list starts like its first dumped value. -/
theorem dumpElems_head (v : Json) (tl : JsonList) (X : List Char) :
    ∃ c t2, dumpElems (.cons v tl) ++ X = c :: t2 ∧ isJsonWs c = false ∧
      c ≠ ']' ∧ c ≠ '\x7d' := by
  obtain ⟨c, t, hct, h1, h2, h3⟩ := dumpVal_head v
  cases tl with
  | nil =>
    refine ⟨c, t ++ X, ?_, h1, h2, h3⟩
    rw [dumpElems, hct, List.cons_append]
  | cons w tl2 =>
    refine ⟨c, t ++ (',' :: ' ' :: dumpElems (.cons w tl2)) ++ X, ?_, h1, h2, h3⟩
    rw [dumpElems, hct]
    simp [List.cons_append, List.append_assoc]

/-- A dumped field list starts with the quote of its first key. -/
theorem dumpFields_head (k : String) (v : Json) (tl : JsonFields) (X : List Char) :
    ∃ t2, dumpFields (.cons k v tl) ++ X = '"' :: t2 := by
  cases tl with
  | nil =>
    refine ⟨(encChars k.data ++ ['"']) ++ (':' :: ' ' :: dumpVal v) ++ X, ?_⟩
    rw [dumpFields, dumpStr]
    simp [List.cons_append, List.append_assoc]
  | cons k2 w tl2 =>
    refine ⟨(encChars k.data ++ ['"']) ++
      (':' :: ' ' :: dumpVal v ++ ',' :: ' ' :: dumpFields (.cons k2 w tl2)) ++ X, ?_⟩
    rw [dumpFields, dumpStr]
    simp [List.cons_append, List.append_assoc]

/-- Whitespace skipping does not touch a dumped value. -/
theorem skipWs_dumpVal (j : Json) (X : List Char) :
    skipWs (dumpVal j ++ X) = dumpVal j ++ X := by
  obtain ⟨c, t, hct, hws, _, _⟩ := dumpVal_head j
  rw [hct, List.cons_append, skipWs_not_ws hws]

/-- Whitespace skipping does not touch a dumped element list. -/
theorem skipWs_dumpElems (v : Json) (tl : JsonList) (X : List Char) :
    skipWs (dumpElems (.cons v tl) ++ X) = dumpElems (.cons v tl) ++ X := by
  obtain ⟨c, t2, hsh, hws, _, _⟩ := dumpElems_head v tl X
  rw [hsh, skipWs_not_ws hws]

/-- Whitespace skipping does not touch a dumped field list. -/
theorem skipWs_dumpFields (k : String) (v : Json) (tl : JsonFields) (X : List Char) :
    skipWs (dumpFields (.cons k v tl) ++ X) = dumpFields (.cons k v tl) ++ X := by
  obtain ⟨t2, hsh⟩ := dumpFields_head k v tl X
  rw [hsh, skipWs_not_ws (by decide : isJsonWs '"' = false)]

/-! ## Size measures used as fuel bounds -/

mutual
def sizeJ : Json → Nat
  | .str s => s.data.length + 2
  | .arr l => sizeL l + 1
  | .obj fl => sizeF fl + 1
  | .null => 1
  | .bool _ => 1
  | .num _ => 1
def sizeL : JsonList → Nat
  | .nil => 0
  | .cons v tl => sizeJ v + sizeL tl + 1
def sizeF : JsonFields → Nat
  | .nil => 0
  | .cons k v tl => k.data.length + sizeJ v + sizeF tl + 2
end

/-- Every value has positive size. -/
theorem sizeJ_pos (j : Json) : 1 ≤ sizeJ j := by
  cases j <;> simp [sizeJ]

/-- Escaping cannot shorten a string body. -/
theorem le_length_encChars : ∀ l : List Char, l.length ≤ (encChars l).length := by
  intro l
  induction l with
  | nil => simp [encChars]
  | cons c cs ih =>
    rw [encChars, List.length_append, List.length_cons]
    have h1 : 1 ≤ (encChar c).length := by
      rw [encChar]
      split_ifs <;> simp [hex4]
    omega

/-- A dumped integer is never empty. -/
theorem one_le_length_dumpInt (i : Int) : 1 ≤ (dumpInt i).length := by
  rw [dumpInt]
  split_ifs
  · simp
  · exact List.length_pos.mpr (dumpNat_ne_nil i.toNat)

mutual
theorem sizeJ_le_dump : ∀ j : Json, sizeJ j ≤ (dumpVal j).length
  | .null => by simp [sizeJ, dumpVal]
  | .bool true => by simp [sizeJ, dumpVal]
  | .bool false => by simp [sizeJ, dumpVal]
  | .num i => by
    rw [sizeJ, dumpVal]
    exact one_le_length_dumpInt i
  | .str s => by
    rw [sizeJ, dumpVal, dumpStr]
    simp only [List.length_cons, List.length_append, List.length_singleton]
    have := le_length_encChars s.data
    omega
  | .arr .nil => by simp [sizeJ, sizeL, dumpVal]
  | .arr (.cons v tl) => by
    rw [sizeJ, dumpVal]
    simp only [List.length_cons, List.length_append, List.length_singleton]
    have := sizeL_le_dump (.cons v tl)
    omega
  | .obj .nil => by simp [sizeJ, sizeF, dumpVal]
  | .obj (.cons k v tl) => by
    rw [sizeJ, dumpVal]
    simp only [List.length_cons, List.length_append, List.length_singleton]
    have := sizeF_le_dump (.cons k v tl)
    omega
theorem sizeL_le_dump : ∀ l : JsonList, sizeL l ≤ (dumpElems l).length + 1
  | .nil => by simp [sizeL, dumpElems]
  | .cons v .nil => by
    rw [sizeL, sizeL, dumpElems]
    have := sizeJ_le_dump v
    omega
  | .cons v (.cons w tl) => by
    rw [sizeL, dumpElems]
    simp only [List.length_append, List.length_cons]
    have h1 := sizeJ_le_dump v
    have h2 := sizeL_le_dump (.cons w tl)
    omega
theorem sizeF_le_dump : ∀ fl : JsonFields, sizeF fl ≤ (dumpFields fl).length + 1
  | .nil => by simp [sizeF, dumpFields]
  | .cons k v .nil => by
    rw [sizeF, sizeF, dumpFields, dumpStr]
    simp only [List.length_append, List.length_cons, List.length_singleton]
    have h1 := sizeJ_le_dump v
    have h2 := le_length_encChars k.data
    omega
  | .cons k v (.cons k2 w tl) => by
    rw [sizeF, dumpFields, dumpStr]
    simp only [List.length_append, List.length_cons, List.length_singleton]
    have h1 := sizeJ_le_dump v
    have h2 := le_length_encChars k.data
    have h3 := sizeF_le_dump (.cons k2 w tl)
    omega
end

/-- Decoding a dumped value consumes it exactly, given fuel covering its
size and a tail that cannot extend a number. -/
theorem parse_dump (f : Nat) :
    (∀ (j : Json) (rest : List Char), sizeJ j ≤ f → goodTail rest = true →
      parseVal f (dumpVal j ++ rest) = some (j, rest)) ∧
    (∀ (v : Json) (tl : JsonList) (rest : List Char), sizeL (.cons v tl) ≤ f →
      parseElems f (dumpElems (.cons v tl) ++ (']' :: rest)) = some (.cons v tl, rest)) ∧
    (∀ (k : String) (v : Json) (tl : JsonFields) (rest : List Char),
      sizeF (.cons k v tl) ≤ f →
      parseFields f (dumpFields (.cons k v tl) ++ ('\x7d' :: rest))
        = some (.cons k v tl, rest)) := by
  induction f with
  | zero =>
    refine ⟨?_, ?_, ?_⟩
    · intro j rest hs _
      have := sizeJ_pos j
      omega
    · intro v tl rest hs
      have := sizeJ_pos v
      rw [sizeL] at hs
      omega
    · intro k v tl rest hs
      have := sizeJ_pos v
      rw [sizeF] at hs
      omega
  | succ f ih =>
    obtain ⟨ihV, ihE, ihF⟩ := ih
    refine ⟨?_, ?_, ?_⟩
    · intro j rest hs hg
      cases j with
      | null => rfl
      | bool b => cases b <;> rfl
      | num i =>
        by_cases hi : i < 0
        · rw [dumpVal, dumpInt, if_pos hi, List.cons_append, parseVal,
            if_neg (by decide), if_neg (by decide), if_neg (by decide),
            if_neg (by decide), if_neg (by decide), if_neg (by decide), if_pos rfl,
            parseNum_dumpNat i.natAbs rest hg]
          show some (Json.num (-(i.natAbs : Int)), rest) = some (Json.num i, rest)
          have hn : -(i.natAbs : Int) = i := by omega
          rw [hn]
        · obtain ⟨c, t, hct, hcd⟩ := dumpNat_head i.toNat
          obtain ⟨n1, n2, n3, n4, n5, n6, n7⟩ := isDigitC_head_facts hcd
          rw [dumpVal, dumpInt, if_neg hi, hct, List.cons_append, parseVal,
            if_neg n1, if_neg n2, if_neg n3, if_neg n4, if_neg n5, if_neg n6,
            if_neg n7, if_pos hcd, ← List.cons_append, ← hct,
            parseNum_dumpNat i.toNat rest hg]
          show some (Json.num ((i.toNat : Nat) : Int), rest) = some (Json.num i, rest)
          have hn : ((i.toNat : Nat) : Int) = i := Int.toNat_of_nonneg (by omega)
          rw [hn]
      | str s =>
        rw [sizeJ] at hs
        rw [dumpVal, dumpStr]
        simp only [List.cons_append, List.append_assoc, List.singleton_append, List.nil_append]
        rw [parseVal, if_neg (by decide), if_neg (by decide), if_neg (by decide),
          if_pos rfl, parseStrChars_enc s.data f rest (by omega)]
        show some (Json.str (String.mk s.data), rest) = some (Json.str s, rest)
        rw [string_mk_data]
      | arr l =>
        cases l with
        | nil => rfl
        | cons v tl =>
          rw [sizeJ, sizeL] at hs
          obtain ⟨c, t2, hsh, hws, hbr, hbr2⟩ := dumpElems_head v tl (']' :: rest)
          rw [dumpVal]
          simp only [List.cons_append, List.append_assoc, List.singleton_append, List.nil_append]
          rw [parseVal, if_neg (by decide), if_neg (by decide), if_neg (by decide),
            if_neg (by decide), if_pos rfl, hsh, skipWs_not_ws hws]
          show (if c = ']' then some (Json.arr .nil, t2)
            else (parseElems f (c :: t2)).bind fun lr => some (Json.arr lr.1, lr.2))
            = some (Json.arr (.cons v tl), rest)
          rw [if_neg hbr, ← hsh, ihE v tl rest (by rw [sizeL]; omega)]
          rfl
      | obj fl =>
        cases fl with
        | nil => rfl
        | cons k v tl =>
          rw [sizeJ, sizeF] at hs
          obtain ⟨t2, hsh⟩ := dumpFields_head k v tl ('\x7d' :: rest)
          rw [dumpVal]
          simp only [List.cons_append, List.append_assoc, List.singleton_append, List.nil_append]
          rw [parseVal, if_neg (by decide), if_neg (by decide), if_neg (by decide),
            if_neg (by decide), if_neg (by decide), if_pos rfl, hsh,
            skipWs_not_ws (by decide : isJsonWs '"' = false)]
          show (if ('"' : Char) = '\x7d' then some (Json.obj .nil, t2)
            else (parseFields f ('"' :: t2)).bind fun fr => some (Json.obj fr.1, fr.2))
            = some (Json.obj (.cons k v tl), rest)
          rw [if_neg (by decide), ← hsh, ihF k v tl rest (by rw [sizeF]; omega)]
          rfl
    · intro v tl rest hs
      rw [sizeL] at hs
      cases tl with
      | nil =>
        rw [dumpElems, parseElems, ihV v (']' :: rest) (by omega) (by rfl)]
        rfl
      | cons w tl2 =>
        rw [dumpElems]
        simp only [List.cons_append, List.append_assoc, List.nil_append]
        rw [parseElems, ihV v (',' :: ' ' :: (dumpElems (.cons w tl2) ++ (']' :: rest)))
          (by omega) (by rfl)]
        show (parseElems f (skipWs (dumpElems (.cons w tl2) ++ (']' :: rest)))).bind
            (fun tr => some (JsonList.cons v tr.1, tr.2))
          = some (JsonList.cons v (.cons w tl2), rest)
        rw [skipWs_dumpElems w tl2 (']' :: rest), ihE w tl2 rest (by omega)]
        rfl
    · intro k v tl rest hs
      rw [sizeF] at hs
      cases tl with
      | nil =>
        rw [dumpFields, dumpStr]
        simp only [List.cons_append, List.append_assoc, List.singleton_append, List.nil_append]
        rw [parseFields, if_pos rfl,
          parseStrChars_enc k.data f (':' :: ' ' :: (dumpVal v ++ ('\x7d' :: rest)))
            (by omega)]
        show ((parseVal f (skipWs (dumpVal v ++ ('\x7d' :: rest)))).bind fun vr =>
          match skipWs vr.2 with
          | [] => none
          | s2 :: r4 =>
            if s2 = ',' then
              (parseFields f (skipWs r4)).bind fun tr =>
                some (JsonFields.cons k vr.1 tr.1, tr.2)
            else if s2 = '\x7d' then some (JsonFields.cons k vr.1 .nil, r4)
            else none)
          = some (JsonFields.cons k v .nil, rest)
        rw [skipWs_dumpVal v ('\x7d' :: rest), ihV v ('\x7d' :: rest) (by omega) (by rfl)]
        rfl
      | cons k2 w tl2 =>
        rw [dumpFields, dumpStr]
        simp only [List.cons_append, List.append_assoc, List.singleton_append, List.nil_append]
        rw [parseFields, if_pos rfl,
          parseStrChars_enc k.data f
            (':' :: ' ' :: (dumpVal v ++ (',' :: ' ' ::
              (dumpFields (.cons k2 w tl2) ++ ('\x7d' :: rest))))) (by omega)]
        show ((parseVal f (skipWs (dumpVal v ++ (',' :: ' ' ::
            (dumpFields (.cons k2 w tl2) ++ ('\x7d' :: rest)))))).bind fun vr =>
          match skipWs vr.2 with
          | [] => none
          | s2 :: r4 =>
            if s2 = ',' then
              (parseFields f (skipWs r4)).bind fun tr =>
                some (JsonFields.cons k vr.1 tr.1, tr.2)
            else if s2 = '\x7d' then some (JsonFields.cons k vr.1 .nil, r4)
            else none)
          = some (JsonFields.cons k v (.cons k2 w tl2), rest)
        rw [skipWs_dumpVal v (',' :: ' ' :: (dumpFields (.cons k2 w tl2)
          ++ ('\x7d' :: rest))),
          ihV v (',' :: ' ' :: (dumpFields (.cons k2 w tl2) ++ ('\x7d' :: rest)))
            (by omega) (by rfl)]
        show (parseFields f (skipWs (dumpFields (.cons k2 w tl2) ++ ('\x7d' :: rest)))).bind
            (fun tr => some (JsonFields.cons k v tr.1, tr.2))
          = some (JsonFields.cons k v (.cons k2 w tl2), rest)
        rw [skipWs_dumpFields k2 w tl2 ('\x7d' :: rest), ihF k2 w tl2 rest (by omega)]
        rfl

/-- The dumped form of a JSON value decodes to that value: json.loads
after json.dumps is the identity on the modelled values. -/
theorem loads_dumps (j : Json) : loads (dumps j) = some j := by
  rw [loads]
  have hdata : (dumps j).data = dumpVal j := rfl
  rw [hdata]
  have h1 : skipWs (dumpVal j) = dumpVal j := by
    have h := skipWs_dumpVal j []
    simpa using h
  rw [h1]
  have h2 := (parse_dump ((dumpVal j).length + 1)).1 j []
    (by have := sizeJ_le_dump j; omega) (by rfl)
  rw [List.append_nil] at h2
  rw [h2]
  rfl

/-- A dumped value is a non-empty string, hence truthy in Python. -/
theorem dumps_ne_empty (j : Json) : dumps j ≠ "" := by
  obtain ⟨c, t, hct, _, _, _⟩ := dumpVal_head j
  rw [dumps, hct]
  intro h
  have h2 : (String.mk (c :: t)).data = ("" : String).data := by rw [h]
  simp at h2

/-- Stripping a string of whitespace characters yields the empty string. -/
theorem pyStrip_all_space {s : String} (h : ∀ c ∈ s.data, isPySpace c = true) :
    pyStrip s = "" := by
  rw [pyStrip, pyStripL]
  have h1 : s.data.dropWhile isPySpace = [] :=
    List.dropWhile_eq_nil_iff.mpr h
  rw [h1]
  rfl

/-! ## Cache Store: the Redis client as used by main.py

One entry is a key, a string payload and an absolute expiry instant.
Entries are kept newest first, so a SET shadows older entries for the same
key; GET reads the newest entry and treats an expired or missing entry as
absent, as Redis does with per-key expiry. -/

/-- The Redis backend: reachable with its entries, or unreachable, in
which case every client operation raises a connection error. -/
inductive CacheBackend where
  | up : List (String × String × Nat) → CacheBackend
  | down : CacheBackend
  deriving DecidableEq

/-- Redis GET at an instant: the payload of the newest entry for the key
when it has not expired; otherwise absent. -/
def lookupLive : List (String × String × Nat) → String → Nat → Option String
  | [], _, _ => none
  | (k2, p, exp) :: es, key, now =>
    if k2 = key then (if now < exp then some p else none)
    else lookupLive es key now

/-- Redis SET with EX: store the payload under the key with expiry at
now plus ttl, overwriting any previous entry for the key. -/
def setEntry (es : List (String × String × Nat)) (key payload : String)
    (ttl now : Nat) : List (String × String × Nat) :=
  (key, payload, now + ttl) :: es

/-! ## main.py, the Result Sink display_country_data (lines 57 to 83)

The sink reads the decoded record field by field before writing the
result text on line 66.  Each read can raise on records that are not
shaped as country records (for example null, a bare string or a list),
and every such raise happens before result_text.set, so a failing sink
never changes the display where the raise is not caught.  The predicate
sinkOk below decides, over the embedded JSON values, whether the whole
sequence of reads succeeds; the model records a failing sink as one
exception and abstracts the precise TypeError, KeyError, ValueError or
AttributeError text to a single constant. -/

/-- Python dict lookup on the fields json.loads produces: with duplicate
keys the later binding wins, as in dict construction. -/
def dictGet : JsonFields → String → Option Json
  | .nil, _ => none
  | .cons k v tl, key =>
    match dictGet tl key with
    | some w => some w
    | none => if k = key then some v else none

/-- Whether a key occurs among the fields. -/
def hasKey : JsonFields → String → Bool
  | .nil, _ => false
  | .cons k _ tl, key => k = key || hasKey tl key

/-- The values of the Python dict built from the fields: one value per
distinct key, the later binding winning.  The sink checks below only
quantify over these values, so their order is irrelevant here. -/
def dictVals : JsonFields → List Json
  | .nil => []
  | .cons k v tl => if hasKey tl k then dictVals tl else v :: dictVals tl

/-- Whether a decoded value is a Python str. -/
def isStr : Json → Bool
  | .str _ => true
  | _ => false

/-- Whether every element of a decoded array is a str. -/
def elemsAllStr : JsonList → Bool
  | .nil => true
  | .cons v tl => isStr v && elemsAllStr tl

/-- Whether str.join accepts the value as its iterable: a string (its
characters are one-character strings), an array of strings, or a dict
(iteration yields its keys, which are always strings). -/
def joinOk : Json → Bool
  | .str _ => true
  | .arr l => elemsAllStr l
  | .obj _ => true
  | _ => false

/-- Whether one value of the currencies dict supports the name and symbol
reads of line 63: a dict holding both keys. -/
def currencyEntryOk : Json → Bool
  | .obj vf => (dictGet vf "name").isSome && (dictGet vf "symbol").isSome
  | _ => false

/-- Success of the field reads of display_country_data on a decoded
record: the record must be a dict whose name value is a dict with a
common key (line 58); the capital value, when present, must be joinable
(line 59); the population value, when present, must accept the thousands
format, so an int or a bool (line 61); the languages value, when present,
must be a dict of string values (line 62); the currencies value, when
present, must be a dict whose values each hold name and symbol (line 63);
the flags value, when present, must be a dict (line 64).  Exactly when
all reads succeed, result_text is set to the record text; the flag image
block of lines 76 to 83 catches its own exceptions and never raises. -/
def sinkOk : Json → Bool
  | .obj fs =>
    (match dictGet fs "name" with
     | some (.obj nf) => (dictGet nf "common").isSome
     | _ => false) &&
    (match dictGet fs "capital" with
     | none => true
     | some v => joinOk v) &&
    (match dictGet fs "population" with
     | none => true
     | some (.num _) => true
     | some (.bool _) => true
     | some _ => false) &&
    (match dictGet fs "languages" with
     | none => true
     | some (.obj o) => (dictVals o).all isStr
     | some _ => false) &&
    (match dictGet fs "currencies" with
     | none => true
     | some (.obj o) => (dictVals o).all currencyEntryOk
     | some _ => false) &&
    (match dictGet fs "flags" with
     | none => true
     | some (.obj _) => true
     | some _ => false)
  | _ => false

/-- A minimal record the sink renders: a name dict with a common field,
every optional field absent. -/
def franceRec : Json :=
  .obj (.cons "name" (.obj (.cons "common" (.str "France") .nil)) .nil)

/-! ## main.py, fetch_country_data -/

/-- A response of the requests adapter: an HTTP response with its status
code and parsed JSON body, or a raised transport exception with its
text. -/
inductive AdapterResp where
  | ok : Nat → Json → AdapterResp
  | exn : String → AdapterResp
  deriving DecidableEq

/-- The REST Countries request URL built on line 42 of main.py. -/
def apiUrl (country : String) : String :=
  "https://restcountries.com/v3.1/name/" ++ country

/-- The mutable state a call touches: the Redis backend and the displayed
country record (clear_display makes it none; display_country_data makes
it the fetched record). -/
structure AppState where
  cache : CacheBackend
  display : Option Json
  deriving DecidableEq

/-- Observable outcome of one Search-button press. -/
inductive FetchOutcome where
  | warned : FetchOutcome
  | hitDisplayed : Json → FetchOutcome
  | freshDisplayed : Json → FetchOutcome
  | notFoundShown : String → FetchOutcome
  | errorShown : String → FetchOutcome
  | raised : String → FetchOutcome
  deriving DecidableEq

/-- Result of one call: its outcome, the state afterwards, and how many
adapter requests it performed. -/
structure FetchResult where
  outcome : FetchOutcome
  state : AppState
  adapterCalls : Nat
  deriving DecidableEq

/-- Exception text of the redis client against an unreachable backend. -/
def redisConnErr : String := "redis.exceptions.ConnectionError"

/-- Exception text when json.loads rejects a cached payload; line 37 of
main.py sits outside the try block, so it propagates. -/
def jsonDecodeErr : String := "json.JSONDecodeError"

/-- Text summarising the exception raised when indexing the parsed body
at zero fails on line 46 because the body has no first element; it sits
inside the try block, so it is caught and shown. -/
def badBodyMsg : String := "response.json() has no first record"

/-- Text standing for the exception raised inside display_country_data on
a record it cannot read; the model does not track the precise Python
exception text.  On the fresh path (line 48, inside the try block) it is
caught and shown; on the cache-hit path (line 38, outside the try block)
it escapes the handler. -/
def sinkErrMsg : String := "display_country_data raised"

/-- Python indexing of the parsed body at zero, as on line 46: the first
element of a list, the first character of a non-empty string (itself a
one-character string), and a raise for anything else. -/
def pyIndex0 : Json → Option Json
  | .arr (.cons d _) => some d
  | .str s =>
    match s.data with
    | c :: _ => some (.str (String.mk [c]))
    | [] => none
  | _ => none

/-- Lines 41 to 54 of main.py, reached after a cache miss with the backend
up: request the API.  On status 200, index the body at zero (a failing
index raises inside the try block before any cache write), cache the dump
of the first record for an hour, then hand it to the sink: a record the
sink renders is displayed, and a record the sink raises on leaves the
error shown and the display cleared with the cache already populated,
because line 47 runs before line 48.  On any other status show the
not-found error and clear the display; on a raised transport error show
its text and clear the display. -/
def fetchFromApi (country : String) (adapter : String → AdapterResp) (now : Nat)
    (es : List (String × String × Nat)) : FetchResult :=
  match adapter (apiUrl country) with
  | .ok status body =>
    if status = 200 then
      match pyIndex0 body with
      | some d =>
        if sinkOk d then
          { outcome := .freshDisplayed d,
            state := { cache := .up (setEntry es country (dumps d) 3600 now),
                       display := some d },
            adapterCalls := 1 }
        else
          { outcome := .errorShown sinkErrMsg,
            state := { cache := .up (setEntry es country (dumps d) 3600 now),
                       display := none },
            adapterCalls := 1 }
      | none =>
        { outcome := .errorShown badBodyMsg,
          state := { cache := .up es, display := none },
          adapterCalls := 1 }
    else
      { outcome := .notFoundShown country,
        state := { cache := .up es, display := none },
        adapterCalls := 1 }
  | .exn msg =>
    { outcome := .errorShown msg,
      state := { cache := .up es, display := none },
      adapterCalls := 1 }

/-- Lines 25 to 54 of main.py, one call of fetch_country_data: strip the
entry text; warn and return on a blank entry; consult Redis, raising when
the backend is down because line 34 sits outside the try block; on a
truthy cached payload decode it with json.loads (uncaught on failure) and
hand it to the sink, whose raise on an unreadable record also escapes,
line 38 being outside the try block, with the display unchanged;
otherwise fall through to the API. -/
def fetch_country_data (input : String) (adapter : String → AdapterResp)
    (now : Nat) (st : AppState) : FetchResult :=
  let country := pyStrip input
  if country = "" then { outcome := .warned, state := st, adapterCalls := 0 }
  else
    match st.cache with
    | .down => { outcome := .raised redisConnErr, state := st, adapterCalls := 0 }
    | .up es =>
      match lookupLive es country now with
      | some cached =>
        if cached = "" then fetchFromApi country adapter now es
        else
          match loads cached with
          | some d =>
            if sinkOk d then
              { outcome := .hitDisplayed d,
                state := { cache := .up es, display := some d }, adapterCalls := 0 }
            else
              { outcome := .raised sinkErrMsg, state := st, adapterCalls := 0 }
          | none =>
            { outcome := .raised jsonDecodeErr, state := st, adapterCalls := 0 }
      | none => fetchFromApi country adapter now es

/-! ## stock_visualizer.py, the background runner and the sink -/

/-- The characters before the first space-minus-space separator, or none
when the separator does not occur. -/
def beforeSep : List Char → Option (List Char)
  | ' ' :: '-' :: ' ' :: _ => some []
  | c :: cs =>
    match beforeSep cs with
    | some l => some (c :: l)
    | none => none
  | [] => none

/-- Lines 267 to 272 of stock_visualizer.py: when the separator occurs in
the dropdown selection, the ticker is the text before its first
occurrence (split at the separator, first part); otherwise the whole
selection. -/
def extractTicker (selection : String) : String :=
  match beforeSep selection.data with
  | some l => String.mk l
  | none => selection

/-- The runner state: the known tech companies and the fetch threads
spawned so far, each of which performs exactly one get_stock_data call. -/
structure VizModel where
  companies : List String
  spawned : List (String × Nat)
  deriving DecidableEq

/-- Lines 263 to 281, load_stock_data: resolve the ticker; when it names a
known company, start a new thread running the load-and-plot body;
otherwise only the status text changes. -/
def load_stock_data (m : VizModel) (selection : String) (days : Nat) : VizModel :=
  let ticker := extractTicker selection
  if m.companies.contains ticker then
    { companies := m.companies, spawned := m.spawned ++ [(ticker, days)] }
  else m

/-- A burst of identical submissions issued while no result has been
delivered yet. -/
def submitRepeated (m : VizModel) (selection : String) (days : Nat) : Nat → VizModel
  | 0 => m
  | n + 1 => load_stock_data (submitRepeated m selection days n) selection days

/-- Number of get_stock_data invocations performed for a key: one per
spawned thread for that key (line 292 calls it unconditionally). -/
def adapterInvocations (m : VizModel) (k : String) : Nat :=
  (m.spawned.filter (fun s => s.1 = k)).length

/-- The shared UI state the thread body mutates. -/
structure UiState where
  current_ticker : Option String
  current_data : Option String
  chart : Option (String × Nat × String)
  deriving DecidableEq

/-- Lines 283 to 320, the success path of the thread body: fetch the data,
overwrite current_data and current_ticker, and redraw the chart with the
ticker and data of this thread.  No comparison against any newer request is
made before rendering. -/
def loadAndPlotComplete (get_stock_data : String → Nat → String) (_st : UiState)
    (ticker : String) (days : Nat) : UiState :=
  let data := get_stock_data ticker days
  { current_ticker := some ticker, current_data := some data,
    chart := some (ticker, days, data) }

/-- Thread completions are applied to the shared UI state in the order the
threads finish, which need not be the order they were submitted. -/
def runCompletions (get_stock_data : String → Nat → String) (st : UiState)
    (completions : List (String × Nat)) : UiState :=
  completions.foldl (fun s c => loadAndPlotComplete get_stock_data s c.1 c.2) st

/-! ## Behavioural lemmas about the embedded programs -/

/-- Every API fall-through performs exactly one adapter request. -/
theorem fetchFromApi_calls (country : String) (adapter : String → AdapterResp)
    (now : Nat) (es : List (String × String × Nat)) :
    (fetchFromApi country adapter now es).adapterCalls = 1 := by
  cases h : adapter (apiUrl country) with
  | ok status body =>
    by_cases hst : status = 200
    · subst hst
      cases hp : pyIndex0 body with
      | none => simp [fetchFromApi, h, hp]
      | some d =>
        by_cases hs : sinkOk d = true
        · simp [fetchFromApi, h, hp, hs]
        · simp [fetchFromApi, h, hp, hs]
    · simp [fetchFromApi, h, hst]
  | exn msg => simp [fetchFromApi, h]

/-- A live cache entry holding the dump of a record the sink renders is
displayed after decoding, with no adapter request and the cache
untouched. -/
theorem fetch_cached_dumps (input : String) (adapter : String → AdapterResp)
    (now : Nat) (es : List (String × String × Nat)) (disp : Option Json) (d : Json)
    (hne : ¬pyStrip input = "")
    (hlk : lookupLive es (pyStrip input) now = some (dumps d))
    (hs : sinkOk d = true) :
    fetch_country_data input adapter now { cache := .up es, display := disp } =
      { outcome := .hitDisplayed d,
        state := { cache := .up es, display := some d }, adapterCalls := 0 } := by
  simp [fetch_country_data, hne, hlk, dumps_ne_empty d, loads_dumps, hs]

/-- A live cache entry holding the dump of a record the sink cannot read
raises out of the handler, with no adapter request and the state
unchanged. -/
theorem fetch_cached_dumps_raises (input : String) (adapter : String → AdapterResp)
    (now : Nat) (es : List (String × String × Nat)) (disp : Option Json) (d : Json)
    (hne : ¬pyStrip input = "")
    (hlk : lookupLive es (pyStrip input) now = some (dumps d))
    (hs : sinkOk d = false) :
    fetch_country_data input adapter now { cache := .up es, display := disp } =
      { outcome := .raised sinkErrMsg,
        state := { cache := .up es, display := disp }, adapterCalls := 0 } := by
  simp [fetch_country_data, hne, hlk, dumps_ne_empty d, loads_dumps, hs]

/-- Whatever the decoded record, the cache-hit path performs no adapter
request. -/
theorem fetch_cached_dumps_calls (input : String) (adapter : String → AdapterResp)
    (now : Nat) (es : List (String × String × Nat)) (disp : Option Json) (d : Json)
    (hne : ¬pyStrip input = "")
    (hlk : lookupLive es (pyStrip input) now = some (dumps d)) :
    (fetch_country_data input adapter now
      { cache := .up es, display := disp }).adapterCalls = 0 := by
  by_cases hs : sinkOk d = true
  · rw [fetch_cached_dumps input adapter now es disp d hne hlk hs]
  · rw [fetch_cached_dumps_raises input adapter now es disp d hne hlk
      (by simpa using hs)]

/-- A cache miss with the backend up falls through to the API path. -/
theorem fetch_miss (input : String) (adapter : String → AdapterResp) (now : Nat)
    (es : List (String × String × Nat)) (disp : Option Json)
    (hne : ¬pyStrip input = "")
    (hlk : lookupLive es (pyStrip input) now = none) :
    fetch_country_data input adapter now { cache := .up es, display := disp } =
      fetchFromApi (pyStrip input) adapter now es := by
  simp [fetch_country_data, hne, hlk]

/-- Submissions never change the company table. -/
theorem submitRepeated_companies (m : VizModel) (sel : String) (days : Nat) :
    ∀ n, (submitRepeated m sel days n).companies = m.companies := by
  intro n
  induction n with
  | zero => rfl
  | succ n ih =>
    rw [submitRepeated, load_stock_data]
    split_ifs
    · exact ih
    · exact ih

/-! ## The claims -/

/-- Claim C1, as stated, is false of the code: two submissions of the same
uncached key while no result has been delivered spawn two threads and
perform two get_stock_data invocations, not exactly one. -/
theorem c1_two_submissions_two_calls :
    adapterInvocations (submitRepeated ⟨["AAPL"], []⟩ "AAPL" 30 2) "AAPL" = 2 ∧
      (2 : Nat) ≠ 1 := by
  constructor
  · rfl
  · decide

/-- Claim C1 amended: load_stock_data spawns one fetch thread per
submission of a known ticker, each performing its own get_stock_data
call, so a burst of n submissions for the same key adds n adapter
invocations for that key; there is no coalescing or single-flight. -/
theorem c1_each_submission_invokes_adapter (m : VizModel) (selection : String)
    (days : Nat) (n : Nat)
    (h : m.companies.contains (extractTicker selection) = true) :
    adapterInvocations (submitRepeated m selection days n) (extractTicker selection)
      = adapterInvocations m (extractTicker selection) + n := by
  induction n with
  | zero => rfl
  | succ n ih =>
    have hc : (submitRepeated m selection days n).companies.contains
        (extractTicker selection) = true := by
      rw [submitRepeated_companies]
      exact h
    rw [submitRepeated, load_stock_data]
    simp only [hc, if_true]
    simp only [adapterInvocations, List.filter_append, List.length_append] at ih ⊢
    simp
    omega

/-- Claim C1 amended, witnessed on a burst of three submissions. -/
theorem c1_each_submission_invokes_adapter_witness :
    (⟨["AAPL"], []⟩ : VizModel).companies.contains (extractTicker "AAPL") = true ∧
    adapterInvocations (submitRepeated ⟨["AAPL"], []⟩ "AAPL" 30 3)
        (extractTicker "AAPL")
      = adapterInvocations ⟨["AAPL"], []⟩ (extractTicker "AAPL") + 3 :=
  ⟨by decide, c1_each_submission_invokes_adapter ⟨["AAPL"], []⟩ "AAPL" 30 3 (by decide)⟩

/-- Claim C2, as stated, is false of the code: with the Redis backend
unreachable, fetch_country_data raises the connection error out of the
handler (line 34 sits outside the try block) and never reaches the
adapter, instead of degrading to a cache miss. -/
theorem c2_backend_down_raises :
    (fetch_country_data "france" (fun _ => .ok 200 (.arr (.cons .null .nil))) 0
      { cache := .down, display := none }).outcome = .raised redisConnErr ∧
    (fetch_country_data "france" (fun _ => .ok 200 (.arr (.cons .null .nil))) 0
      { cache := .down, display := none }).adapterCalls = 0 :=
  ⟨rfl, rfl⟩

/-- Claim C2 amended: for every non-blank key, when the Cache Store
backend is unreachable the call raises the backend error, performs no
adapter request, and leaves the state unchanged; there is no fail-open
fall-through to the adapter. -/
theorem c2_backend_down_raises_no_adapter (input : String)
    (adapter : String → AdapterResp) (now : Nat) (disp : Option Json)
    (hne : ¬pyStrip input = "") :
    fetch_country_data input adapter now { cache := .down, display := disp } =
      { outcome := .raised redisConnErr,
        state := { cache := .down, display := disp }, adapterCalls := 0 } := by
  simp [fetch_country_data, hne]

/-- Claim C2 amended, witnessed on the key france. -/
theorem c2_backend_down_raises_no_adapter_witness :
    fetch_country_data "france" (fun _ => .exn "unused") 7
      { cache := .down, display := some .null } =
      { outcome := .raised redisConnErr,
        state := { cache := .down, display := some .null }, adapterCalls := 0 } :=
  c2_backend_down_raises_no_adapter "france" (fun _ => .exn "unused") 7 (some .null)
    (by decide)

/-- Claim C3 is right about the intended behaviour and the code violates
it: submit key AAPL, then key MSFT for the same chart slot; the MSFT
thread finishes first and the AAPL thread finishes later.  The thread
body overwrites the chart unconditionally in completion order, so the
stale AAPL result is rendered last instead of being discarded, and the
sink does not show only the most recent submission MSFT. -/
theorem c3_stale_completion_overwrites_newer :
    (runCompletions (fun t _ => t ++ "-data") ⟨none, none, none⟩
      [("MSFT", 30), ("AAPL", 30)]).current_ticker = some "AAPL" ∧
    some "AAPL" ≠ some "MSFT" := by
  constructor
  · rfl
  · decide

/-- Claim C4, as stated, is false of the code: the program can store the
dump of a record the sink cannot read (a 200 body whose first element is
null or a bare string is cached on line 47 before the sink runs), and a
later hit on such an entry raises out of the handler on line 38 instead
of returning the stored payload as a cache hit, the adapter still
unused. -/
theorem c4_hit_on_stored_null_raises :
    fetch_country_data "france" (fun _ => .exn "unused") 5
      { cache := .up [("france", dumps .null, 10)], display := none } =
      { outcome := .raised sinkErrMsg,
        state := { cache := .up [("france", dumps .null, 10)], display := none },
        adapterCalls := 0 } ∧
    FetchOutcome.raised sinkErrMsg ≠ .hitDisplayed .null :=
  ⟨rfl, by decide⟩

/-- Claim C4 amended: a present, unexpired entry holding a dumped record
is read with zero adapter calls and decoded back to the stored record;
when the record is one the Result Sink renders, it is delivered as a
cache hit with the display updated, and when it is not, the sink raises
out of the handler (line 38 sits outside the try block) with the display
unchanged. -/
theorem c4_cache_hit_zero_adapter_calls (input : String)
    (adapter : String → AdapterResp) (now : Nat)
    (es : List (String × String × Nat)) (disp : Option Json) (d : Json)
    (hne : ¬pyStrip input = "")
    (hlk : lookupLive es (pyStrip input) now = some (dumps d)) :
    (fetch_country_data input adapter now
      { cache := .up es, display := disp }).adapterCalls = 0 ∧
    (sinkOk d = true →
      fetch_country_data input adapter now { cache := .up es, display := disp } =
        { outcome := .hitDisplayed d,
          state := { cache := .up es, display := some d }, adapterCalls := 0 }) ∧
    (sinkOk d = false →
      fetch_country_data input adapter now { cache := .up es, display := disp } =
        { outcome := .raised sinkErrMsg,
          state := { cache := .up es, display := disp }, adapterCalls := 0 }) :=
  ⟨fetch_cached_dumps_calls input adapter now es disp d hne hlk,
   fun hs => fetch_cached_dumps input adapter now es disp d hne hlk hs,
   fun hs => fetch_cached_dumps_raises input adapter now es disp d hne hlk hs⟩

/-- Claim C4 amended, witnessed on a stored well-shaped record. -/
theorem c4_cache_hit_zero_adapter_calls_witness :
    (fetch_country_data "france" (fun _ => .exn "unused") 5
      { cache := .up [("france", dumps franceRec, 10)],
        display := none }).adapterCalls = 0 ∧
    (sinkOk franceRec = true →
      fetch_country_data "france" (fun _ => .exn "unused") 5
        { cache := .up [("france", dumps franceRec, 10)], display := none } =
        { outcome := .hitDisplayed franceRec,
          state := { cache := .up [("france", dumps franceRec, 10)],
                     display := some franceRec }, adapterCalls := 0 }) ∧
    (sinkOk franceRec = false →
      fetch_country_data "france" (fun _ => .exn "unused") 5
        { cache := .up [("france", dumps franceRec, 10)], display := none } =
        { outcome := .raised sinkErrMsg,
          state := { cache := .up [("france", dumps franceRec, 10)],
                     display := none }, adapterCalls := 0 }) :=
  c4_cache_hit_zero_adapter_calls "france" (fun _ => .exn "unused") 5
    [("france", dumps franceRec, 10)] none franceRec (by decide) (by rfl)

/-- Claim C5: after set with a positive ttl at time now, a get strictly
before now plus ttl returns the payload, and a get strictly after
now plus ttl reports absent. -/
theorem c5_ttl_set_get (es : List (String × String × Nat)) (k p : String)
    (ttl now t : Nat) (_hpos : 0 < ttl) :
    (t < now + ttl → lookupLive (setEntry es k p ttl now) k t = some p) ∧
    (now + ttl < t → lookupLive (setEntry es k p ttl now) k t = none) := by
  constructor
  · intro ht
    rw [setEntry, lookupLive, if_pos rfl, if_pos ht]
  · intro ht
    rw [setEntry, lookupLive, if_pos rfl, if_neg (by omega)]

/-- Claim C5, witnessed with the one-hour ttl of main.py. -/
theorem c5_ttl_set_get_witness :
    (0 : Nat) < 3600 ∧
    lookupLive (setEntry [] "france" "payload" 3600 0) "france" 100 = some "payload" ∧
    lookupLive (setEntry [] "france" "payload" 3600 0) "france" 4000 = none :=
  ⟨by decide,
   (c5_ttl_set_get [] "france" "payload" 3600 0 100 (by decide)).1 (by decide),
   (c5_ttl_set_get [] "france" "payload" 3600 0 4000 (by decide)).2 (by decide)⟩

/-- Claim C6: a non-200 response shows the not-found error, clears the
display, leaves the Cache Store exactly as it was (no negative caching),
and a subsequent call for the same still-uncached key performs one more
adapter request. -/
theorem c6_not_found_no_negative_caching (input : String)
    (adapter : String → AdapterResp) (now now2 : Nat)
    (es : List (String × String × Nat)) (disp : Option Json)
    (status : Nat) (body : Json)
    (hne : ¬pyStrip input = "")
    (hlk : lookupLive es (pyStrip input) now = none)
    (had : adapter (apiUrl (pyStrip input)) = .ok status body)
    (hst : status ≠ 200)
    (hlk2 : lookupLive es (pyStrip input) now2 = none) :
    fetch_country_data input adapter now { cache := .up es, display := disp } =
      { outcome := .notFoundShown (pyStrip input),
        state := { cache := .up es, display := none }, adapterCalls := 1 } ∧
    (fetch_country_data input adapter now2
      { cache := .up es, display := none }).adapterCalls = 1 := by
  constructor
  · rw [fetch_miss input adapter now es disp hne hlk]
    simp [fetchFromApi, had, hst]
  · rw [fetch_miss input adapter now2 es none hne hlk2, fetchFromApi_calls]

/-- Claim C6, witnessed on a 404 for an uncached key. -/
theorem c6_not_found_no_negative_caching_witness :
    fetch_country_data "wakanda" (fun _ => .ok 404 .null) 0
      { cache := .up [], display := none } =
      { outcome := .notFoundShown (pyStrip "wakanda"),
        state := { cache := .up [], display := none }, adapterCalls := 1 } ∧
    (fetch_country_data "wakanda" (fun _ => .ok 404 .null) 1
      { cache := .up [], display := none }).adapterCalls = 1 :=
  c6_not_found_no_negative_caching "wakanda" (fun _ => .ok 404 .null) 0 1 [] none
    404 .null (by decide) (by rfl) (by rfl) (by decide) (by rfl)

/-- Claim C7: a raised transport error is caught and shown, the display
is cleared, exactly one adapter request was made, the Cache Store is left
exactly as it was, and the key remains absent from it. -/
theorem c7_transport_error_no_cache_entry (input : String)
    (adapter : String → AdapterResp) (now : Nat)
    (es : List (String × String × Nat)) (disp : Option Json) (msg : String)
    (hne : ¬pyStrip input = "")
    (hlk : lookupLive es (pyStrip input) now = none)
    (had : adapter (apiUrl (pyStrip input)) = .exn msg) :
    fetch_country_data input adapter now { cache := .up es, display := disp } =
      { outcome := .errorShown msg,
        state := { cache := .up es, display := none }, adapterCalls := 1 } ∧
    lookupLive es (pyStrip input) now = none := by
  refine ⟨?_, hlk⟩
  rw [fetch_miss input adapter now es disp hne hlk]
  simp [fetchFromApi, had]

/-- Claim C7, witnessed on the key atlantis from the spec example. -/
theorem c7_transport_error_no_cache_entry_witness :
    fetch_country_data "atlantis" (fun _ => .exn "ConnectionError") 0
      { cache := .up [], display := some .null } =
      { outcome := .errorShown "ConnectionError",
        state := { cache := .up [], display := none }, adapterCalls := 1 } ∧
    lookupLive [] (pyStrip "atlantis") 0 = none :=
  c7_transport_error_no_cache_entry "atlantis" (fun _ => .exn "ConnectionError") 0
    [] (some .null) "ConnectionError" (by decide) (by rfl) (by rfl)

/-- Claim C8: a blank or all-whitespace entry only shows the input
warning: the call returns with the state (cache and display) unchanged
and zero adapter calls, and since this holds even for an unreachable
backend, the cache is never consulted. -/
theorem c8_blank_input_no_effect (input : String) (adapter : String → AdapterResp)
    (now : Nat) (st : AppState)
    (h : ∀ c ∈ input.data, isPySpace c = true) :
    fetch_country_data input adapter now st =
      { outcome := .warned, state := st, adapterCalls := 0 } := by
  have he : pyStrip input = "" := pyStrip_all_space h
  simp [fetch_country_data, he]

/-- Claim C8, witnessed on whitespace input against a down backend. -/
theorem c8_blank_input_no_effect_witness :
    fetch_country_data " \t " (fun _ => .exn "unused") 0
      { cache := .down, display := some .null } =
      { outcome := .warned,
        state := { cache := .down, display := some .null }, adapterCalls := 0 } :=
  c8_blank_input_no_effect " \t " (fun _ => .exn "unused") 0
    { cache := .down, display := some .null } (by decide)

/-- Claim C9: the behaviour of a call depends on its input only through
the stripped text, so inputs equal after stripping address the same cache
entry, URL and outcome; and for inputs with distinct stripped forms (such
as case-differing names), a cache entry stored under the first key is hit
by the first input (zero adapter calls) and missed by the second (one
adapter call), so they address distinct cache entries. -/
theorem c9_key_is_stripped_input (i1 i2 : String) (adapter : String → AdapterResp)
    (now : Nat) (st : AppState) (d : Json) :
    (pyStrip i1 = pyStrip i2 →
      fetch_country_data i1 adapter now st = fetch_country_data i2 adapter now st) ∧
    (pyStrip i1 ≠ pyStrip i2 → pyStrip i1 ≠ "" → pyStrip i2 ≠ "" →
      (fetch_country_data i1 adapter now
        { cache := .up [(pyStrip i1, dumps d, now + 1)],
          display := none }).adapterCalls = 0 ∧
      (fetch_country_data i2 adapter now
        { cache := .up [(pyStrip i1, dumps d, now + 1)],
          display := none }).adapterCalls = 1) := by
  constructor
  · intro he
    simp only [fetch_country_data, he]
  · intro hne hn1 hn2
    constructor
    · exact fetch_cached_dumps_calls i1 adapter now
        [(pyStrip i1, dumps d, now + 1)] none d hn1
        (by rw [lookupLive, if_pos rfl, if_pos (by omega)])
    · have hmiss : lookupLive [(pyStrip i1, dumps d, now + 1)] (pyStrip i2) now
          = none := by
        rw [lookupLive, if_neg hne]
        rfl
      rw [fetch_miss i2 adapter now _ none hn2 hmiss, fetchFromApi_calls]

/-- Claim C9, witnessed: surrounding whitespace is invisible, while a case
difference selects a different cache entry. -/
theorem c9_key_is_stripped_input_witness :
    (fetch_country_data " france " (fun _ => .exn "boom") 0
        { cache := .down, display := none }
      = fetch_country_data "france" (fun _ => .exn "boom") 0
        { cache := .down, display := none }) ∧
    ((fetch_country_data "france" (fun _ => .exn "boom") 0
        { cache := .up [(pyStrip "france", dumps .null, 0 + 1)],
          display := none }).adapterCalls = 0 ∧
     (fetch_country_data "France" (fun _ => .exn "boom") 0
        { cache := .up [(pyStrip "france", dumps .null, 0 + 1)],
          display := none }).adapterCalls = 1) :=
  ⟨(c9_key_is_stripped_input " france " "france" (fun _ => .exn "boom") 0
      { cache := .down, display := none } .null).1 (by decide),
   (c9_key_is_stripped_input "france" "France" (fun _ => .exn "boom") 0
      { cache := .down, display := none } .null).2 (by decide) (by decide) (by decide)⟩

/-- Claim C10: a fetch whose delivered result is a FreshFetch (a 200
response whose first record the sink renders) displays that record and
stores its dump under the stripped key for an hour; a later call before
expiry decodes that same stored payload and delivers exactly the record
the fresh fetch delivered, because loads after dumps is the identity. -/
theorem c10_cache_round_trip_identity (input : String)
    (adapter adapter2 : String → AdapterResp) (now t : Nat)
    (es : List (String × String × Nat)) (disp disp2 : Option Json)
    (d : Json) (tl : JsonList)
    (hne : ¬pyStrip input = "")
    (hlk : lookupLive es (pyStrip input) now = none)
    (had : adapter (apiUrl (pyStrip input)) = .ok 200 (.arr (.cons d tl)))
    (hs : sinkOk d = true)
    (ht : t < now + 3600) :
    loads (dumps d) = some d ∧
    fetch_country_data input adapter now { cache := .up es, display := disp } =
      { outcome := .freshDisplayed d,
        state := { cache := .up (setEntry es (pyStrip input) (dumps d) 3600 now),
                   display := some d }, adapterCalls := 1 } ∧
    (fetch_country_data input adapter2 t
      { cache := .up (setEntry es (pyStrip input) (dumps d) 3600 now),
        display := disp2 }).outcome = .hitDisplayed d := by
  refine ⟨loads_dumps d, ?_, ?_⟩
  · rw [fetch_miss input adapter now es disp hne hlk]
    simp [fetchFromApi, had, pyIndex0, hs]
  · rw [fetch_cached_dumps input adapter2 t
      (setEntry es (pyStrip input) (dumps d) 3600 now) disp2 d hne
      (by rw [setEntry, lookupLive, if_pos rfl, if_pos ht]) hs]

/-- Claim C10, witnessed end to end on a concrete renderable record. -/
theorem c10_cache_round_trip_identity_witness :
    loads (dumps franceRec) = some franceRec ∧
    fetch_country_data "france" (fun _ => .ok 200 (.arr (.cons franceRec .nil))) 0
      { cache := .up [], display := none } =
      { outcome := .freshDisplayed franceRec,
        state := { cache := .up
                     (setEntry [] (pyStrip "france") (dumps franceRec) 3600 0),
                   display := some franceRec }, adapterCalls := 1 } ∧
    (fetch_country_data "france" (fun _ => .exn "boom") 5
      { cache := .up (setEntry [] (pyStrip "france") (dumps franceRec) 3600 0),
        display := none }).outcome = .hitDisplayed franceRec :=
  c10_cache_round_trip_identity "france"
    (fun _ => .ok 200 (.arr (.cons franceRec .nil)))
    (fun _ => .exn "boom") 0 5 [] none none franceRec .nil
    (by decide) (by rfl) (by rfl) (by decide) (by decide)
